import Mathlib

/-
Verification development for the metronome synchronization core.

Shallow embedding of:
  - src/src/utils/timing-utils.ts (final revision: getReferenceTime,
    getTransportPositionSeconds, getTotalAudioLatency); the ambient browser
    values now() + wallClockOffset and getTotalAudioLatency() are passed as
    explicit parameters (currentTimeMs, latencySeconds).  JavaScript numbers
    are modelled as exact rationals; the JS remainder operator (truncated
    toward zero) is modelled by jsMod.
  - src/src/metronome/MetronomeStateSync.svelte (stateHandler, broadcast gate).
  - src/src/metronome/providers/MetronomeStateProvider.svelte
    (setMetronomeStateLocal, the leader default state).
  - src/unnamed/part_026, second document (class Clock and the leader/follower
    branches of the clock-sync reactive effect), modelled as a step function
    over the events that mutate a Clock.
  - src/src/pages/api/group-code.ts, second document (the WebSocket relay:
    createGroup, addMemberToGroup, removeMemberFromGroup, broadcastToGroup,
    broadcastGroupUpdate, and the socket close handler).  A JS Set is
    modelled as a duplicate-free list in insertion order.
  - src/unnamed/part_019 (updatePlaybackWithState), modelled as a function
    from the inputs read by the effect to the action performed on the
    Tone.js transport.
-/

namespace Metronome

/-- JavaScript number truncation toward zero, as used by the JS remainder
operator: `Math.trunc`-style integer part of a rational. -/
def jsTrunc (q : ℚ) : ℤ := if 0 ≤ q then ⌊q⌋ else ⌈q⌉

/-- The JavaScript remainder operator on rationals: the result has the sign
of the dividend, `a % b = a - b * trunc(a / b)`. -/
def jsMod (a b : ℚ) : ℚ := a - b * (jsTrunc (a / b) : ℚ)

/-- From src/src/utils/timing-utils.ts, getReferenceTime (final revision):
`currentTime + (-transportSeconds + audioLatencySeconds + optionalStartDelaySeconds) * 1000`,
where `currentTime = now() + wallClockOffset` and `audioLatencySeconds =
getTotalAudioLatency()` are ambient and passed here as parameters. -/
def getReferenceTime (currentTimeMs transportSeconds latencySeconds
    startDelaySeconds : ℚ) : ℚ :=
  currentTimeMs + (-transportSeconds + latencySeconds + startDelaySeconds) * 1000

/-- From src/src/utils/timing-utils.ts, getTransportPositionSeconds (final
revision): `((currentTime - referenceTime)/1000 + audioLatencySeconds +
optionalStartDelaySeconds) % measureLengthSeconds`, normalized to be
non-negative by adding the measure length when the JS remainder is negative. -/
def getTransportPositionSeconds (currentTimeMs referenceTimeMs
    measureLengthSeconds latencySeconds startDelaySeconds : ℚ) : ℚ :=
  let timeSinceReferenceSeconds := (currentTimeMs - referenceTimeMs) / 1000
  let transportSeconds := timeSinceReferenceSeconds + latencySeconds + startDelaySeconds
  let transportSecondsModulo := jsMod transportSeconds measureLengthSeconds
  if transportSecondsModulo < 0 then transportSecondsModulo + measureLengthSeconds
  else transportSecondsModulo

/-- Time signature record from MetronomeStateProvider.svelte. -/
structure TimeSignature where
  beatsPerMeasure : ℚ
  beatUnit : ℚ
deriving DecidableEq

/-- MetronomeState from MetronomeStateProvider.svelte.  `referenceTime` is
`number | undefined`, modelled as `Option`. -/
structure MetronomeState where
  bpm : ℚ
  timeSignature : TimeSignature
  isPlaying : Bool
  referenceTime : Option ℚ
deriving DecidableEq

/-- JavaScript truthiness of a `number | undefined` value: `undefined` and
`0` are falsy, every other (rational) number is truthy. -/
def jsTruthyNum : Option ℚ → Bool
  | none => false
  | some x => decide (x ≠ 0)

/-- deepEqual from src/src/utils/object-utils.ts, specialized to two
MetronomeState records: the recursive key-by-key comparison coincides with
structural equality on this fixed record shape. -/
def deepEqual (a b : MetronomeState) : Bool := decide (a = b)

/-- The broadcast gate of the reactive effect in MetronomeStateSync.svelte:
`(metronomeState.referenceTime || metronomeState.isPlaying === false) &&
!deepEqual(metronomeState, lastKnownState)`. -/
def broadcastGate (metronomeState lastKnownState : MetronomeState) : Bool :=
  (jsTruthyNum metronomeState.referenceTime || metronomeState.isPlaying == false)
    && !(deepEqual metronomeState lastKnownState)

/-- The whole effect body of MetronomeStateSync.svelte: when the gate passes,
lastKnownState is overwritten with the current state and the state is
broadcast (the Bool records whether a broadcast happened). -/
def broadcastEffect (metronomeState lastKnownState : MetronomeState) :
    Bool × MetronomeState :=
  if broadcastGate metronomeState lastKnownState then (true, metronomeState)
  else (false, lastKnownState)

/-- Object.assign of one full MetronomeState onto another: every own field
of the source overwrites the target field. -/
def objectAssignFull (target src : MetronomeState) : MetronomeState :=
  { target with
    bpm := src.bpm
    timeSignature := src.timeSignature
    isPlaying := src.isPlaying
    referenceTime := src.referenceTime }

/-- stateHandler from MetronomeStateSync.svelte: on receipt of a remote
`metronomeState` message, `Object.assign(metronomeState, data.state)` then
`Object.assign(lastKnownState, metronomeState)`.  Returns the new
(metronomeState, lastKnownState) pair. -/
def stateHandler (metronomeState lastKnownState incoming : MetronomeState) :
    MetronomeState × MetronomeState :=
  let newLocal := objectAssignFull metronomeState incoming
  let newLastKnown := objectAssignFull lastKnownState newLocal
  (newLocal, newLastKnown)

/-- The default state installed by the leader branch of the initialization
effect in MetronomeStateProvider.svelte. -/
def initialLeaderState : MetronomeState :=
  { bpm := 120
    timeSignature := { beatsPerMeasure := 4, beatUnit := 4 }
    isPlaying := false
    referenceTime := none }

/-- A `Partial<MetronomeState>` update: each field may be absent. -/
structure MetronomeStatePatch where
  bpm : Option ℚ
  timeSignature : Option TimeSignature
  isPlaying : Option Bool
  referenceTime : Option (Option ℚ)
deriving DecidableEq

/-- The JS spread `{ ...current, ...newState }` for a full state and a
partial update: fields present in the update win. -/
def spreadMerge (current : MetronomeState) (newState : MetronomeStatePatch) :
    MetronomeState :=
  { bpm := newState.bpm.getD current.bpm
    timeSignature := newState.timeSignature.getD current.timeSignature
    isPlaying := newState.isPlaying.getD current.isPlaying
    referenceTime := newState.referenceTime.getD current.referenceTime }

/-- setMetronomeStateLocal from MetronomeStateProvider.svelte:
`tmp = { ...current, ...newState }`, then `tmp.referenceTime =
current.isPlaying === newState?.isPlaying ? current.referenceTime : undefined`
(a strict JS equality, false when the update omits isPlaying), then
`Object.assign(current, tmp)`.  Returns the new value of `current`. -/
def setMetronomeStateLocal (current : MetronomeState)
    (newState : MetronomeStatePatch) : MetronomeState :=
  let tmp := spreadMerge current newState
  { tmp with
    referenceTime :=
      if newState.isPlaying = some current.isPlaying then current.referenceTime
      else none }

/-- The clock-sync state from src/unnamed/part_026 (class Clock):
`syncOffset` is the offset estimated by the timesync primitive,
`manualOffset` a persisted user correction (default 0), `peers` the sampling
peer set installed into `ts.options.peers`. -/
structure Clock where
  syncOffset : ℚ
  manualOffset : ℚ
  synced : Bool
  syncing : Bool
  peers : List String
deriving DecidableEq

/-- Derived field `offset = $derived(this.syncOffset + this.manualOffset)`. -/
def Clock.offset (c : Clock) : ℚ := c.syncOffset + c.manualOffset

/-- Initial Clock: syncOffset 0, manualOffset default 0, synced and syncing
false, empty sampling peer set (`timesync.create({ peers: [] ... })`). -/
def initialClock : Clock :=
  { syncOffset := 0, manualOffset := 0, synced := false, syncing := false
    peers := [] }

/-- The events that mutate a Clock, from the constructor handlers and the
reactive effect of src/unnamed/part_026:
  - syncEvent: the timesync `sync` handler (`syncing = state === "start"`);
  - changeEvent: the timesync `change` handler (`synced = true; syncOffset = newOffset`);
  - errorEvent: the timesync `error` handler (logs only);
  - leaderEffect: the `groupState.isGroupLeader` branch of the effect
    (`ts.options.peers = []; clock.synced = true`);
  - followerEffect: the follower branch (`ts.options.peers = [groupState.leader]`). -/
inductive ClockEvent where
  | syncEvent (isStart : Bool)
  | changeEvent (newOffset : ℚ)
  | errorEvent
  | leaderEffect
  | followerEffect (leaderId : String)
deriving DecidableEq

/-- One step of the clock-sync state machine. -/
def clockStep (c : Clock) : ClockEvent → Clock
  | .syncEvent isStart => { c with syncing := isStart }
  | .changeEvent newOffset => { c with synced := true, syncOffset := newOffset }
  | .errorEvent => c
  | .leaderEffect => { c with peers := [], synced := true }
  | .followerEffect leaderId => { c with peers := [leaderId] }

/-- A relay-side group from src/src/pages/api/group-code.ts (WebSocket
revision).  The JS `Set<string>` of members is modelled as a duplicate-free
list in insertion order (Set iteration order). -/
structure Group where
  code : String
  members : List String
  leader : String
deriving DecidableEq

/-- The group-update message pushed to members on every membership change. -/
structure GroupUpdate where
  groupCode : String
  members : List String
  leader : String
deriving DecidableEq

/-- JS `Set.add` on the insertion-ordered list model: appending only when
the element is not already present keeps its original position. -/
def setAdd (l : List String) (x : String) : List String :=
  if x ∈ l then l else l ++ [x]

/-- createGroup: a fresh group whose only member is the leader. -/
def createGroup (code leaderId : String) : Group :=
  { code := code, members := [leaderId], leader := leaderId }

/-- addMemberToGroup: `group.members.add(peerId)`; the leader is untouched. -/
def addMemberToGroup (g : Group) (peerId : String) : Group :=
  { g with members := setAdd g.members peerId }

/-- removeMemberFromGroup: delete the member; if the group became empty it is
removed from the store (`none`); otherwise, if the leader left, the new
leader is `Array.from(group.members)[0]`, the first remaining member in
insertion order. -/
def removeMemberFromGroup (g : Group) (peerId : String) : Option Group :=
  let remaining := g.members.erase peerId
  if remaining.isEmpty then none
  else
    some { g with
      members := remaining
      leader := if g.leader = peerId then remaining.headD g.leader else g.leader }

/-- broadcastToGroup: send the message to every member of the group that has
an open socket in `clients`, skipping `excludePeerId` when given. -/
def broadcastToGroup (g : Group) (openClients : List String)
    (message : GroupUpdate) (excludePeerId : Option String) :
    List (String × GroupUpdate) :=
  (g.members.filter fun peerId =>
      !(excludePeerId == some peerId) && decide (peerId ∈ openClients)).map
    fun peerId => (peerId, message)

/-- broadcastGroupUpdate: push the current membership and leader to every
member with an open socket. -/
def broadcastGroupUpdate (g : Group) (openClients : List String) :
    List (String × GroupUpdate) :=
  broadcastToGroup g openClients
    { groupCode := g.code, members := g.members, leader := g.leader } none

/-- The socket `onclose` handler: `removeMemberFromGroup(peerId)`, then
`clients.delete(peerId)`, then `broadcastGroupUpdate(groupCode)` (which is a
no-op when the group was deleted).  Returns the surviving group (if any) and
the list of (recipient, message) pairs sent. -/
def onSocketClose (g : Group) (openClients : List String) (peerId : String) :
    Option Group × List (String × GroupUpdate) :=
  let removed := removeMemberFromGroup g peerId
  let remainingClients := openClients.erase peerId
  match removed with
  | none => (none, [])
  | some g2 => (some g2, broadcastGroupUpdate g2 remainingClients)

/-- Relay group well-formedness: a stored group is non-empty, its member
list is duplicate-free (it models a JS Set), and its leader is a member. -/
def GroupWF (g : Group) : Prop :=
  g.members ≠ [] ∧ g.members.Nodup ∧ g.leader ∈ g.members

/-- The action updatePlaybackWithState (src/unnamed/part_019) performs on
the Tone.js transport / the shared state. -/
inductive PlaybackAction where
  | stopTransport
  | keepStopped
  | startAtPosition (delaySeconds positionSeconds : ℚ)
  | setPosition (positionSeconds : ℚ)
  | startAndWriteReference (delaySeconds referenceTimeMs : ℚ)
  | writeReference (referenceTimeMs : ℚ)
deriving DecidableEq

/-- START_DELAY from src/unnamed/part_019. -/
def START_DELAY : ℚ := 1/10

/-- updatePlaybackWithState from src/unnamed/part_019, as a function of the
inputs the effect reads: the shared state, whether the transport is already
started, `clock.now()` (nowMs), `transport.progress` (progressFrac),
`transport.toSeconds("1m")` (measureLengthSeconds), the device audio latency
and the Tone.js lookahead.  The branch on the shared reference time is the
JS truthiness test `if (state.referenceTime)`. -/
def updatePlaybackWithState (state : MetronomeState) (transportStarted : Bool)
    (nowMs progressFrac measureLengthSeconds latencySeconds
      lookaheadSeconds : ℚ) : PlaybackAction :=
  if state.isPlaying = false then
    if transportStarted then .stopTransport else .keepStopped
  else
    let isStarting := !transportStarted
    let startDelayWithLookahead := START_DELAY + lookaheadSeconds
    if jsTruthyNum state.referenceTime then
      let transportOffset := getTransportPositionSeconds nowMs
        (state.referenceTime.getD 0) measureLengthSeconds latencySeconds
        (if isStarting then startDelayWithLookahead else lookaheadSeconds)
      if isStarting then .startAtPosition START_DELAY transportOffset
      else .setPosition transportOffset
    else
      if isStarting then
        .startAndWriteReference START_DELAY
          (getReferenceTime nowMs 0 latencySeconds startDelayWithLookahead)
      else
        .writeReference
          (getReferenceTime nowMs (progressFrac * measureLengthSeconds)
            latencySeconds lookaheadSeconds)

/-- A protocol-inconsistent incoming state for claim C4: negative BPM and a
time signature with beat unit 3. -/
def badRemoteState : MetronomeState :=
  { bpm := -1
    timeSignature := { beatsPerMeasure := 4, beatUnit := 3 }
    isPlaying := true
    referenceTime := some 1000 }

/-- A synced follower clock used to witness claim C8. -/
def clockSyncedExample : Clock :=
  { syncOffset := 5, manualOffset := 0, synced := true, syncing := false
    peers := ["leader"] }

/-- A playing state with a reference time, used to witness claim C10. -/
def playingStateExample : MetronomeState :=
  { bpm := 120
    timeSignature := { beatsPerMeasure := 4, beatUnit := 4 }
    isPlaying := true
    referenceTime := some 42 }

/-- A bpm-only partial update, used to witness claim C10. -/
def bpmOnlyPatch : MetronomeStatePatch :=
  { bpm := some 130, timeSignature := none, isPlaying := none, referenceTime := none }

/-- A playing state whose referenceTime is the number 0 (present but falsy
in JS), used to witness claim C9. -/
def playingZeroRefState : MetronomeState :=
  { bpm := 120
    timeSignature := { beatsPerMeasure := 4, beatUnit := 4 }
    isPlaying := true
    referenceTime := some 0 }

end Metronome

namespace Metronome

/-- The JS remainder of t by a positive L lies strictly between -L and L. -/
theorem jsMod_bounds (t L : ℚ) (hL : 0 < L) : -L < jsMod t L ∧ jsMod t L < L := by
  have hL0 : L ≠ 0 := ne_of_gt hL
  have ht : L * (t / L) = t := by field_simp
  unfold jsMod jsTrunc
  by_cases h : 0 ≤ t / L
  · rw [if_pos h]
    have h1 : (⌊t / L⌋ : ℚ) ≤ t / L := Int.floor_le _
    have h2 : t / L < ⌊t / L⌋ + 1 := Int.lt_floor_add_one _
    constructor
    · nlinarith [mul_le_mul_of_nonneg_left h1 hL.le]
    · nlinarith [mul_lt_mul_of_pos_left h2 hL]
  · rw [if_neg h]
    have h1 : t / L ≤ (⌈t / L⌉ : ℚ) := Int.le_ceil _
    have h2 : (⌈t / L⌉ : ℚ) < t / L + 1 := Int.ceil_lt_add_one _
    constructor
    · nlinarith [mul_lt_mul_of_pos_left h2 hL]
    · nlinarith [mul_le_mul_of_nonneg_left h1 hL.le]

/-- The JS remainder differs from the dividend by an integer multiple of the
divisor. -/
theorem jsMod_eq_sub_int (t L : ℚ) : ∃ k : ℤ, jsMod t L = t - L * k :=
  ⟨jsTrunc (t / L), rfl⟩

/-- The normalized transport position lies in [0, measureLength) whenever the
measure length is positive, for every latency and start delay. -/
theorem getTransportPositionSeconds_range (currentTimeMs referenceTimeMs L
    latencySeconds startDelaySeconds : ℚ) (hL : 0 < L) :
    0 ≤ getTransportPositionSeconds currentTimeMs referenceTimeMs L
        latencySeconds startDelaySeconds ∧
    getTransportPositionSeconds currentTimeMs referenceTimeMs L
        latencySeconds startDelaySeconds < L := by
  obtain ⟨hlo, hhi⟩ := jsMod_bounds
    ((currentTimeMs - referenceTimeMs) / 1000 + latencySeconds + startDelaySeconds) L hL
  simp only [getTransportPositionSeconds]
  by_cases h : jsMod
      ((currentTimeMs - referenceTimeMs) / 1000 + latencySeconds + startDelaySeconds) L < 0
  · rw [if_pos h]
    constructor <;> linarith
  · rw [if_neg h]
    constructor <;> linarith

/-- Claim C1 (amended): with zero latency and zero start delay the transport
position is in [0, measureLengthSeconds), and feeding it back through
getReferenceTime with the same current time reproduces referenceTimeMs only
up to a whole number of measures (exactly when the current time is within
one measure at or after the reference time), not in general. -/
theorem scheduling_roundtrip_amended (nowMs referenceTimeMs L : ℚ)
    (hnow : 0 < nowMs) (href : 0 < referenceTimeMs) (hL : 0 < L) :
    0 ≤ getTransportPositionSeconds nowMs referenceTimeMs L 0 0 ∧
    getTransportPositionSeconds nowMs referenceTimeMs L 0 0 < L ∧
    (∃ k : ℤ, getReferenceTime nowMs
        (getTransportPositionSeconds nowMs referenceTimeMs L 0 0) 0 0
        = referenceTimeMs + 1000 * L * k) ∧
    (getReferenceTime nowMs
        (getTransportPositionSeconds nowMs referenceTimeMs L 0 0) 0 0
        = referenceTimeMs ↔
      0 ≤ nowMs - referenceTimeMs ∧ nowMs - referenceTimeMs < 1000 * L) := by
  obtain ⟨h0, h1⟩ := getTransportPositionSeconds_range nowMs referenceTimeMs L 0 0 hL
  refine ⟨h0, h1, ?_, ?_⟩
  · obtain ⟨k, hk⟩ := jsMod_eq_sub_int ((nowMs - referenceTimeMs) / 1000 + 0 + 0) L
    simp only [getTransportPositionSeconds, getReferenceTime]
    by_cases h : jsMod ((nowMs - referenceTimeMs) / 1000 + 0 + 0) L < 0
    · refine ⟨k - 1, ?_⟩
      rw [if_pos h, hk]
      push_cast
      ring
    · refine ⟨k, ?_⟩
      rw [if_neg h, hk]
      ring
  · constructor
    · intro heq
      simp only [getReferenceTime] at heq
      exact ⟨by linarith, by linarith⟩
    rintro ⟨hd0, hd1⟩
    have ht0 : 0 ≤ (nowMs - referenceTimeMs) / 1000 + 0 + 0 := by
      have := div_nonneg hd0 (by norm_num : (0:ℚ) ≤ 1000)
      linarith
    have hq0 : 0 ≤ ((nowMs - referenceTimeMs) / 1000 + 0 + 0) / L :=
      div_nonneg ht0 hL.le
    have hq1 : ((nowMs - referenceTimeMs) / 1000 + 0 + 0) / L < 1 := by
      rw [div_lt_one hL]
      have h2 : (nowMs - referenceTimeMs) / 1000 < L := by
        rw [div_lt_iff₀ (by norm_num : (0:ℚ) < 1000)]
        linarith
      linarith
    have hfl : ⌊((nowMs - referenceTimeMs) / 1000 + 0 + 0) / L⌋ = 0 := by
      rw [Int.floor_eq_zero_iff]
      exact Set.mem_Ico.mpr ⟨hq0, hq1⟩
    have hmod : jsMod ((nowMs - referenceTimeMs) / 1000 + 0 + 0) L
        = (nowMs - referenceTimeMs) / 1000 + 0 + 0 := by
      unfold jsMod jsTrunc
      rw [if_pos hq0, hfl]
      push_cast
      ring
    simp only [getTransportPositionSeconds, getReferenceTime, hmod]
    rw [if_neg (not_lt.mpr ht0)]
    field_simp

/-- Claim C1 witness: a concrete instance of scheduling_roundtrip_amended. -/
theorem scheduling_roundtrip_amended_witness :
    (0:ℚ) < 2 ∧ (0:ℚ) < 1 ∧
    (0 ≤ getTransportPositionSeconds 2 1 1 0 0 ∧
      getTransportPositionSeconds 2 1 1 0 0 < 1 ∧
      (∃ k : ℤ, getReferenceTime 2 (getTransportPositionSeconds 2 1 1 0 0) 0 0
          = 1 + 1000 * 1 * k) ∧
      (getReferenceTime 2 (getTransportPositionSeconds 2 1 1 0 0) 0 0 = 1 ↔
        0 ≤ (2:ℚ) - 1 ∧ (2:ℚ) - 1 < 1000 * 1)) :=
  ⟨by norm_num, by norm_num,
    scheduling_roundtrip_amended 2 1 1 (by norm_num) (by norm_num) (by norm_num)⟩

/-- Claim C1 counterexample: at nowMs = 5000, referenceTimeMs = 1000,
measureLengthSeconds = 2 (all positive, zero latency and start delay) the
round trip yields 5000, which is not referenceTimeMs: the claimed identity
fails by two whole measures (4000 ms), far beyond floating tolerance. -/
theorem scheduling_roundtrip_counterexample :
    (0:ℚ) < 5000 ∧ (0:ℚ) < 1000 ∧ (0:ℚ) < 2 ∧
    getReferenceTime 5000 (getTransportPositionSeconds 5000 1000 2 0 0) 0 0 = 5000 ∧
    (5000 : ℚ) ≠ 1000 := by
  refine ⟨by norm_num, by norm_num, by norm_num, ?_, by norm_num⟩
  have h : getTransportPositionSeconds 5000 1000 2 0 0 = 0 := by
    have hf : (⌊(2 : ℚ)⌋ : ℤ) = 2 := by norm_num
    norm_num [getTransportPositionSeconds, jsMod, jsTrunc, hf]
  rw [h]
  norm_num [getReferenceTime]

/-- Claim C3: the replicator effect broadcasts only when the state has a
defined reference time or is a stop state, and differs from the last known
state.  The code gate is JS truthiness of referenceTime, which is stricter
than definedness, so broadcast implies a defined referenceTime or a stopped
state; in particular a playing state with no reference time (the disjunction
forces a defined referenceTime when isPlaying is true) is never broadcast. -/
theorem broadcast_gate_necessary (s last : MetronomeState)
    (h : broadcastGate s last = true) :
    (s.referenceTime ≠ none ∨ s.isPlaying = false) ∧ s ≠ last := by
  have h2 := h
  simp only [broadcastGate, deepEqual, Bool.and_eq_true, Bool.not_eq_true',
    decide_eq_false_iff_not, Bool.or_eq_true, beq_iff_eq] at h2
  refine ⟨?_, h2.2⟩
  rcases h2.1 with h3 | h3
  · left
    cases hr : s.referenceTime with
    | none => rw [hr] at h3; simp [jsTruthyNum] at h3
    | some x => simp
  · right
    exact h3

/-- Claim C3 witness: a stopped state differing from the last known state
passes the gate, so the necessary condition holds at it. -/
theorem broadcast_gate_necessary_witness :
    (initialLeaderState.referenceTime ≠ none ∨ initialLeaderState.isPlaying = false) ∧
      initialLeaderState ≠
        { bpm := 100
          timeSignature := { beatsPerMeasure := 4, beatUnit := 4 }
          isPlaying := false
          referenceTime := none } :=
  broadcast_gate_necessary initialLeaderState
    { bpm := 100
      timeSignature := { beatsPerMeasure := 4, beatUnit := 4 }
      isPlaying := false
      referenceTime := none }
    (by decide)

/-- Claim C4 counterexample: the stateHandler applies a protocol-inconsistent
remote state (negative BPM, invalid beat unit) instead of dropping it — the
local replica is overwritten with the invalid state, not kept. -/
theorem state_handler_applies_invalid_state :
    (stateHandler initialLeaderState initialLeaderState badRemoteState).1
      = badRemoteState ∧
    (stateHandler initialLeaderState initialLeaderState badRemoteState).1
      ≠ initialLeaderState ∧
    badRemoteState.bpm < 0 := by
  decide

/-- Claim C4 (amended): the metronomeState message handler performs no
validation at all; every received state — protocol-inconsistent or not — is
applied unconditionally, overwriting both the local replica and the
last-known state.  Processing never crashes (the handler is a total
function). -/
theorem state_handler_overwrites_unconditionally
    (localState lastKnown incoming : MetronomeState) :
    stateHandler localState lastKnown incoming = (incoming, incoming) := rfl

/-- Claim C5 counterexample: a device that adopted sync offset 5 as a
follower (a timesync change event) and then becomes leader: the leader
branch empties the sampling peer set and marks synced, but the clock offset
remains 5, not 0. -/
theorem leader_offset_counterexample :
    (clockStep (clockStep initialClock (.changeEvent 5)) .leaderEffect).peers = [] ∧
    (clockStep (clockStep initialClock (.changeEvent 5)) .leaderEffect).synced = true ∧
    (clockStep (clockStep initialClock (.changeEvent 5)) .leaderEffect).offset ≠ 0 := by
  refine ⟨rfl, rfl, ?_⟩
  norm_num [clockStep, initialClock, Clock.offset]

/-- Claim C5 (amended): when isLocalLeader becomes true the clock-sync
effect sets the sampling peer set to empty and marks synced = true, but it
does not reset syncOffset or manualOffset; the leader's offset equals its
pre-existing syncOffset + manualOffset and is 0 only when that sum already
was 0 (e.g. a device that was never a follower and has no manual offset). -/
theorem leader_effect_amended (c : Clock) :
    (clockStep c .leaderEffect).peers = [] ∧
    (clockStep c .leaderEffect).synced = true ∧
    (clockStep c .leaderEffect).syncOffset = c.syncOffset ∧
    (clockStep c .leaderEffect).manualOffset = c.manualOffset ∧
    ((clockStep c .leaderEffect).offset = 0 ↔ c.syncOffset + c.manualOffset = 0) := by
  simp [clockStep, Clock.offset]

/-- Claim C8: once synced is true it stays true under every clock-sync
event — the change and leader events set it, the others leave it unchanged —
and the timesync error handler (a temporarily failed resample) changes
nothing at all, keeping the last good offset. -/
theorem synced_sticky (c : Clock) (e : ClockEvent) (h : c.synced = true) :
    (clockStep c e).synced = true ∧ clockStep c .errorEvent = c := by
  refine ⟨?_, rfl⟩
  cases e <;> simp [clockStep, h]

/-- Claim C8 witness: the error event on a concrete synced clock keeps it
synced and unchanged. -/
theorem synced_sticky_witness :
    (clockStep clockSyncedExample .errorEvent).synced = true ∧
      clockStep clockSyncedExample .errorEvent = clockSyncedExample :=
  synced_sticky clockSyncedExample .errorEvent rfl

/-- Claim C10: setMetronomeStateLocal merges the update over the current
state field by field, except that referenceTime is kept exactly when the
update's isPlaying field is present and strictly equal to the current one,
and cleared to undefined otherwise — in particular an update that omits
isPlaying clears the reference time (none never equals some b). -/
theorem set_metronome_state_local_spec (current : MetronomeState)
    (u : MetronomeStatePatch) :
    setMetronomeStateLocal current u =
      { bpm := u.bpm.getD current.bpm
        timeSignature := u.timeSignature.getD current.timeSignature
        isPlaying := u.isPlaying.getD current.isPlaying
        referenceTime :=
          if u.isPlaying = some current.isPlaying then current.referenceTime
          else none } ∧
    (u.isPlaying = none → (setMetronomeStateLocal current u).referenceTime = none) := by
  constructor
  · rfl
  · intro h
    simp [setMetronomeStateLocal, spreadMerge, h]

/-- Claim C10 witness: a bpm-only update on a playing state clears the
reference time. -/
theorem set_metronome_state_local_spec_witness :
    (setMetronomeStateLocal playingStateExample bpmOnlyPatch).referenceTime = none :=
  (set_metronome_state_local_spec playingStateExample bpmOnlyPatch).2 rfl

/-- Claim C2: with the current time 1 ms before the reference time, a
measure length of 2 s, zero latency and zero start delay, the JS remainder
is the negative value -0.001, and normalization by adding the measure
length yields exactly 1.999 s. -/
theorem transport_position_negative_normalization (referenceTimeMs : ℚ) :
    getTransportPositionSeconds (referenceTimeMs - 1) referenceTimeMs 2 0 0
      = 1999 / 1000 := by
  have h : (referenceTimeMs - 1 - referenceTimeMs) / 1000 + 0 + 0 = (-1/1000 : ℚ) := by
    ring
  have hc : (⌈(-(1/2000) : ℚ)⌉ : ℤ) = 0 := by norm_num
  simp only [getTransportPositionSeconds, h]
  norm_num [jsMod, jsTrunc, hc]

/-- Splitting lemma for List.filter: when the filtered list starts with b,
the original list is b preceded only by elements the predicate rejects —
i.e. b is the earliest surviving element. -/
theorem filter_eq_cons_split (q : String → Bool) :
    ∀ (l : List String) (b : String) (t : List String), l.filter q = b :: t →
      ∃ pre rest, l = pre ++ b :: rest ∧ ∀ x ∈ pre, q x = false := by
  intro l
  induction l with
  | nil => intro b t hf; simp at hf
  | cons a l2 ih =>
    intro b t hf
    cases hqa : q a with
    | true =>
      rw [List.filter_cons, hqa, if_pos rfl] at hf
      injection hf with h1 h2
      subst h1
      exact ⟨[], l2, rfl, by simp⟩
    | false =>
      rw [List.filter_cons, hqa, if_neg Bool.false_ne_true] at hf
      obtain ⟨pre, rest, hsplit, hpre⟩ := ih b t hf
      refine ⟨a :: pre, rest, by rw [hsplit]; rfl, ?_⟩
      intro x hx
      rcases List.mem_cons.mp hx with rfl | hx2
      · exact hqa
      · exact hpre x hx2

/-- Claim C7: leaderId is a member whenever the member list is non-empty
(together with the Set discipline: stored groups are non-empty and
duplicate-free), and this invariant is preserved by group creation, member
join, and member removal with leader reassignment. -/
theorem relay_group_invariant :
    (∀ code leaderId, GroupWF (createGroup code leaderId)) ∧
    (∀ g peerId, GroupWF g → GroupWF (addMemberToGroup g peerId)) ∧
    (∀ g peerId g2, GroupWF g → removeMemberFromGroup g peerId = some g2 →
      GroupWF g2) := by
  refine ⟨?_, ?_, ?_⟩
  · intro code leaderId
    exact ⟨by simp [createGroup], by simp [createGroup], by simp [createGroup]⟩
  · rintro g peerId ⟨hne, hnd, hmem⟩
    simp only [addMemberToGroup, setAdd]
    by_cases hp : peerId ∈ g.members
    · rw [if_pos hp]
      exact ⟨hne, hnd, hmem⟩
    · rw [if_neg hp]
      refine ⟨by simp, ?_, List.mem_append_left _ hmem⟩
      exact hnd.append (List.nodup_singleton peerId) (List.disjoint_singleton.mpr hp)
  · rintro g peerId g2 ⟨hne, hnd, hmem⟩ hrm
    simp only [removeMemberFromGroup] at hrm
    by_cases he : (g.members.erase peerId).isEmpty = true
    · rw [if_pos he] at hrm
      exact absurd hrm (by simp)
    · rw [if_neg he] at hrm
      have hg2 := Option.some.inj hrm
      subst hg2
      have hne2 : g.members.erase peerId ≠ [] := fun hh => he (by rw [hh]; rfl)
      refine ⟨hne2, hnd.erase peerId, ?_⟩
      show (if g.leader = peerId then (g.members.erase peerId).headD g.leader
            else g.leader) ∈ g.members.erase peerId
      by_cases hl : g.leader = peerId
      · rw [if_pos hl]
        cases hrl : g.members.erase peerId with
        | nil => exact absurd hrl hne2
        | cons a t => simp
      · rw [if_neg hl]
        exact (List.mem_erase_of_ne hl).mpr hmem

/-- Claim C7 witness: the invariant at concrete relay operations — create a
group, a second member joins, the leader leaves and the remaining member is
promoted. -/
theorem relay_group_invariant_witness :
    GroupWF (createGroup "g" "a") ∧
    GroupWF (addMemberToGroup (createGroup "g" "a") "b") ∧
    GroupWF { code := "g", members := ["b"], leader := "b" } :=
  ⟨relay_group_invariant.1 "g" "a",
    relay_group_invariant.2.1 _ "b" (relay_group_invariant.1 "g" "a"),
    relay_group_invariant.2.2 (addMemberToGroup (createGroup "g" "a") "b") "a"
      { code := "g", members := ["b"], leader := "b" }
      (relay_group_invariant.2.1 _ "b" (relay_group_invariant.1 "g" "a"))
      (by decide)⟩

/-- Claim C6: when the leader disconnects from a group that remains
non-empty, the relay removes it, promotes the earliest-joined remaining
member (the new leader is preceded in the join-ordered member list only by
the departed peer), and the close handler broadcasts the updated group
state — the new member list and leader — to every remaining member with an
open socket. -/
theorem leader_reassignment (g : Group) (peerId : String) (openClients : List String)
    (hwf : GroupWF g) (hleader : g.leader = peerId)
    (hnonempty : g.members.erase peerId ≠ [])
    (hclients : ∀ m ∈ g.members, m ≠ peerId → m ∈ openClients) :
    ∃ g2, removeMemberFromGroup g peerId = some g2 ∧
      g2.members = g.members.erase peerId ∧
      (∃ pre rest, g.members = pre ++ g2.leader :: rest ∧ ∀ x ∈ pre, x = peerId) ∧
      (onSocketClose g openClients peerId).1 = some g2 ∧
      (onSocketClose g openClients peerId).2 = g2.members.map
        (fun m => (m, { groupCode := g.code, members := g2.members,
                        leader := g2.leader })) := by
  obtain ⟨hne, hnd, hmem⟩ := hwf
  have hisE : (g.members.erase peerId).isEmpty = false := by
    cases hrl : g.members.erase peerId with
    | nil => exact absurd hrl hnonempty
    | cons a t => rfl
  have hrm : removeMemberFromGroup g peerId = some
      { g with
        members := g.members.erase peerId
        leader := (g.members.erase peerId).headD g.leader } := by
    simp only [removeMemberFromGroup]
    rw [hisE, if_neg Bool.false_ne_true, if_pos hleader]
  have honc : onSocketClose g openClients peerId =
      (some
        { g with
          members := g.members.erase peerId
          leader := (g.members.erase peerId).headD g.leader },
        broadcastGroupUpdate
          { g with
            members := g.members.erase peerId
            leader := (g.members.erase peerId).headD g.leader }
          (openClients.erase peerId)) := by
    simp only [onSocketClose, hrm]
  refine ⟨_, hrm, rfl, ?_, by rw [honc], ?_⟩
  · have hfilter : g.members.erase peerId = g.members.filter (fun x => x != peerId) :=
      hnd.erase_eq_filter peerId
    cases hrl : g.members.erase peerId with
    | nil => exact absurd hrl hnonempty
    | cons a t =>
      have hfa : g.members.filter (fun x => x != peerId) = a :: t := by
        rw [← hfilter, hrl]
      obtain ⟨pre, rest, hsplit, hpre⟩ := filter_eq_cons_split _ g.members a t hfa
      refine ⟨pre, rest, ?_, ?_⟩
      · simpa using hsplit
      · intro x hx
        simpa using hpre x hx
  · rw [honc]
    have hall : ∀ pid ∈ g.members.erase peerId,
        (!((none : Option String) == some pid)
          && decide (pid ∈ openClients.erase peerId)) = true := by
      intro pid hpid
      obtain ⟨hne2, hmem2⟩ := (hnd.mem_erase_iff).mp hpid
      have hopen : pid ∈ openClients := hclients pid hmem2 hne2
      have hmem3 : pid ∈ openClients.erase peerId :=
        (List.mem_erase_of_ne hne2).mpr hopen
      simp [hmem3]
    simp only [broadcastGroupUpdate, broadcastToGroup]
    rw [List.filter_eq_self.mpr hall]

/-- Claim C6 witness: leader "a" of the group ["a", "b", "c"] disconnects;
"b", the earliest-joined remaining member, is promoted and both remaining
members receive the update. -/
theorem leader_reassignment_witness :
    ∃ g2, removeMemberFromGroup
        { code := "g", members := ["a", "b", "c"], leader := "a" } "a" = some g2 ∧
      g2.members = (["a", "b", "c"] : List String).erase "a" ∧
      (∃ pre rest, ["a", "b", "c"] = pre ++ g2.leader :: rest ∧ ∀ x ∈ pre, x = "a") ∧
      (onSocketClose { code := "g", members := ["a", "b", "c"], leader := "a" }
        ["a", "b", "c"] "a").1 = some g2 ∧
      (onSocketClose { code := "g", members := ["a", "b", "c"], leader := "a" }
        ["a", "b", "c"] "a").2 = g2.members.map
        (fun m => (m, { groupCode := "g", members := g2.members,
                        leader := g2.leader })) :=
  leader_reassignment { code := "g", members := ["a", "b", "c"], leader := "a" }
    "a" ["a", "b", "c"] ⟨by decide, by decide, by decide⟩ rfl (by decide) (by decide)

/-- Claim C9: a playing state whose referenceTime is the number 0 is falsy
under the JS truthiness tests used by both the replicator's broadcast gate
and the scheduler's has-reference-time branch: such a state is never
broadcast, and the scheduler takes the recompute branch (writing a fresh
reference time) instead of adopting 0. -/
theorem zero_reference_time_treated_as_absent (s last : MetronomeState)
    (hplay : s.isPlaying = true) (href2 : s.referenceTime = some 0)
    (transportStarted : Bool)
    (nowMs progressFrac measureLengthSeconds latencySeconds lookaheadSeconds : ℚ) :
    broadcastGate s last = false ∧
    updatePlaybackWithState s transportStarted nowMs progressFrac
        measureLengthSeconds latencySeconds lookaheadSeconds =
      (if transportStarted then
        PlaybackAction.writeReference (getReferenceTime nowMs
          (progressFrac * measureLengthSeconds) latencySeconds lookaheadSeconds)
      else
        PlaybackAction.startAndWriteReference START_DELAY
          (getReferenceTime nowMs 0 latencySeconds (START_DELAY + lookaheadSeconds))) := by
  constructor
  · simp [broadcastGate, href2, hplay, jsTruthyNum]
  · cases transportStarted <;>
      simp [updatePlaybackWithState, hplay, href2, jsTruthyNum]

/-- Claim C9 witness: a concrete playing state with referenceTime 0 on an
already-running transport is not broadcast and causes a reference-time
recompute. -/
theorem zero_reference_time_witness :
    broadcastGate playingZeroRefState initialLeaderState = false ∧
    updatePlaybackWithState playingZeroRefState true 1000 (1/2) 2 0 0 =
      (if true then
        PlaybackAction.writeReference (getReferenceTime 1000 ((1/2) * 2) 0 0)
      else
        PlaybackAction.startAndWriteReference START_DELAY
          (getReferenceTime 1000 0 0 (START_DELAY + 0))) :=
  zero_reference_time_treated_as_absent playingZeroRefState initialLeaderState
    rfl rfl true 1000 (1/2) 2 0 0

end Metronome
